import Mathlib

/-!
# dlib/media/v4l2_capture.h

A shallow embedding of the capture fragment: `v4l2_impl::read_frame`,
`v4l2_impl::xioctl`, `v4l2_impl::open_device` and the constructor of
`v4l2_capture`.

The kernel and the C library are the environment.  A capture driver is a
finite script of answers, consumed one per system call; every system call is
written to a trace together with the answer it received.  A call that the
script no longer answers never returns.
-/

namespace dlib

namespace v4l2_impl

/-! ## Constants of the system headers (Linux, LP64) -/

/-- Value of `EINTR` in `errno.h`. -/
def EINTR : Int := 4

/-- Value of `EIO` in `errno.h`. -/
def EIO : Int := 5

/-- Value of `EAGAIN` in `errno.h`. -/
def EAGAIN : Int := 11

/-- Value of `VIDIOC_QBUF`, that is `_IOWR('V', 15, struct v4l2_buffer)`. -/
def VIDIOC_QBUF : Nat := 0xc058560f

/-- Value of `VIDIOC_DQBUF`, that is `_IOWR('V', 17, struct v4l2_buffer)`. -/
def VIDIOC_DQBUF : Nat := 0xc0585611

/-- Value of `V4L2_BUF_TYPE_VIDEO_CAPTURE` in `linux/videodev2.h`. -/
def V4L2_BUF_TYPE_VIDEO_CAPTURE : Nat := 1

/-- Value of `V4L2_MEMORY_MMAP` in `linux/videodev2.h`. -/
def V4L2_MEMORY_MMAP : Nat := 1

/-- Value of `V4L2_MEMORY_USERPTR` in `linux/videodev2.h`. -/
def V4L2_MEMORY_USERPTR : Nat := 2

/-- Value of `O_RDWR` in `fcntl.h`. -/
def O_RDWR : Nat := 2

/-- Value of `O_NONBLOCK` in `fcntl.h`. -/
def O_NONBLOCK : Nat := 2048

/-- Value of `S_IFMT` in `sys/stat.h`. -/
def S_IFMT : Nat := 0o170000

/-- Value of `S_IFCHR` in `sys/stat.h`. -/
def S_IFCHR : Nat := 0o020000

/-- The macro `S_ISCHR(m)`, that is `((m) & S_IFMT) == S_IFCHR`. -/
def S_ISCHR (m : Nat) : Bool := Nat.land m S_IFMT == S_IFCHR

/-- Conversion of an unsigned constant to `int`, the type of the `request`
parameter of `xioctl`: the value modulo `2^32`, read as two's complement. -/
def to_int (n : Nat) : Int :=
  if n % 2 ^ 32 < 2 ^ 31 then ((n % 2 ^ 32 : Nat) : Int) else ((n % 2 ^ 32 : Nat) : Int) - 2 ^ 32

/-! ## Data -/

/-- The enumeration `io_method`. -/
inductive io_method where
  | IO_METHOD_READ
  | IO_METHOD_MMAP
  | IO_METHOD_USERPTR
deriving DecidableEq, Repr

/-- The structure `buffer`: `start` is the address the `void *` holds. -/
structure buffer where
  start : Nat
  length : Nat
deriving DecidableEq, Repr

/-- The fields of `struct v4l2_buffer` (`linux/videodev2.h`) that the capture
code sets or reads, and `flags`, `field` and `sequence` as the rest of what a
driver fills in.  `userptr` is the member `m.userptr`. -/
structure v4l2_buffer where
  index : Nat
  type : Nat
  bytesused : Nat
  flags : Nat
  field : Nat
  sequence : Nat
  memory : Nat
  userptr : Nat
  length : Nat
deriving DecidableEq, Repr

/-- An answer of the environment to one system call: failure (the call
returns `-1` and `errno` is set) or success with a non-negative return value.
`out` is the structure a successful `ioctl` leaves behind its argument; `read`
has no use for it. -/
inductive Response where
  | fail (errno : Int)
  | ok (ret : Nat) (out : v4l2_buffer)
deriving DecidableEq, Repr

/-- One entry of the trace: a system call with its arguments and the answer it
got (`none`: the call was issued and never answered), or one call of the
consumer `process_image`. -/
inductive Event where
  | read (fd : Int) (buf : Nat) (count : Nat) (ans : Option Response)
  | ioctl (fh : Int) (request : Int) (arg : v4l2_buffer) (ans : Option Response)
  | process_image (p : Nat) (size : Nat)
deriving DecidableEq, Repr

/-- The file-scope objects `read_frame` refers to (`io`, `fd`, `buffers`,
`n_buffers`), `errno`, and the environment: the answers still to come and the
trace so far.  `buffers` is a pointer, so `buffers i` is the object at
offset `i`. -/
structure State where
  io : io_method
  fd : Int
  buffers : Nat → buffer
  n_buffers : Nat
  errno : Int
  script : List Response
  trace : List Event

/-- How a call of `read_frame` ends: it returns a value, the process exits in
`errno_exit(s)`, the process aborts in a failed `assert`, or the call never
returns because a system call is left unanswered. -/
inductive Exit where
  | ret (v : Int)
  | errno_exit (s : String)
  | assert_fail
  | blocked
deriving DecidableEq, Repr

/-! ## Environment -/

/-- The system call `read(fd, buf, count)`: takes the next answer. -/
def read (fd : Int) (buf : Nat) (count : Nat) (s : State) : Option Int × State :=
  match s.script with
  | [] => (none, { s with trace := s.trace ++ [Event.read fd buf count none] })
  | Response.fail e :: rest =>
    (some (-1), { s with errno := e, script := rest,
                         trace := s.trace ++ [Event.read fd buf count (some (Response.fail e))] })
  | Response.ok v out :: rest =>
    (some (v : Int), { s with script := rest,
                              trace := s.trace ++ [Event.read fd buf count (some (Response.ok v out))] })

/-- The system call `ioctl(fh, request, arg)`: takes the next answer.  A call
that fails leaves the structure behind `arg` as it was and sets `errno`; a call
that succeeds stores the driver's structure there and leaves `errno` alone. -/
def ioctl (fh : Int) (request : Int) (arg : v4l2_buffer) (s : State) :
    Option (Int × v4l2_buffer) × State :=
  match s.script with
  | [] => (none, { s with trace := s.trace ++ [Event.ioctl fh request arg none] })
  | Response.fail e :: rest =>
    (some (-1, arg), { s with errno := e, script := rest,
                              trace := s.trace ++ [Event.ioctl fh request arg (some (Response.fail e))] })
  | Response.ok v out :: rest =>
    (some ((v : Int), out), { s with script := rest,
                                     trace := s.trace ++ [Event.ioctl fh request arg (some (Response.ok v out))] })

/-- Modelled from the spec: `process_image` is not defined in the source file;
the spec calls it an opaque consumer, invoked synchronously with the address
and the byte count of a frame.  The call is written to the trace. -/
def process_image (p : Nat) (size : Nat) (s : State) : State :=
  { s with trace := s.trace ++ [Event.process_image p size] }

/-- Modelled from the spec: `errno_exit` is not defined in the source file; in
the spec a condition handled this way is fatal and the session is over.  The
call does not return: the current call of `read_frame` ends here, and the
string names the request that failed (`errno` is in the state). -/
def errno_exit (name : String) (s : State) : Exit × State :=
  (Exit.errno_exit name, s)

/-- Modelled from the spec: the macro `CLEAR` is not defined in the source
file; it prepares the request structure before the fields `type` and `memory`
are set, and is taken to zero it: this is the structure after `CLEAR(buf)`. -/
def CLEAR : v4l2_buffer :=
  { index := 0, type := 0, bytesused := 0, flags := 0, field := 0, sequence := 0,
    memory := 0, userptr := 0, length := 0 }

/-! ## `xioctl` -/

/-- The `do ... while (-1 == r && EINTR == errno)` loop of `xioctl`, with the
number of iterations still allowed. -/
def xioctl_loop : Nat → Int → Int → v4l2_buffer → State → Option (Int × v4l2_buffer) × State
  | 0, _, _, _, s => (none, s)
  | fuel + 1, fh, request, arg, s =>
    match ioctl fh request arg s with
    | (none, s1) => (none, s1)
    | (some (r, arg1), s1) =>
      if r = -1 ∧ s1.errno = EINTR then xioctl_loop fuel fh request arg1 s1
      else (some (r, arg1), s1)

/-- The function `xioctl(fh, request, arg)`.  Every iteration takes one answer
of the script, and an empty script leaves the call unanswered, so one more
iteration than the script has answers is always enough. -/
def xioctl (fh : Int) (request : Int) (arg : v4l2_buffer) (s : State) :
    Option (Int × v4l2_buffer) × State :=
  xioctl_loop (s.script.length + 1) fh request arg s

/-! ## `read_frame` -/

/-- The loop `for (i = 0; i < n_buffers; ++i) if (...) break;` of the
`IO_METHOD_USERPTR` case, from index `i` with `remaining = n_buffers - i`;
the result is the value of `i` after the loop. -/
def userptr_scan (buffers : Nat → buffer) (buf : v4l2_buffer) : Nat → Nat → Nat
  | 0, i => i
  | remaining + 1, i =>
    if buf.userptr = (buffers i).start ∧ buf.length = (buffers i).length then i
    else userptr_scan buffers buf remaining (i + 1)

/-- The function `read_frame`.  A `switch (errno)` is a chain of comparisons
with its `case` constants; `case EIO` has no statement of its own and falls
through to `default`.  A failed `assert` aborts. -/
def read_frame (s : State) : Exit × State :=
  match s.io with
  | io_method.IO_METHOD_READ =>
    match read s.fd (s.buffers 0).start (s.buffers 0).length s with
    | (none, s1) => (Exit.blocked, s1)
    | (some r, s1) =>
      if r = -1 then
        if s1.errno = EAGAIN then (Exit.ret 0, s1)
        else if s1.errno = EIO then errno_exit "read" s1
        else errno_exit "read" s1
      else
        (Exit.ret 1, process_image (s1.buffers 0).start (s1.buffers 0).length s1)
  | io_method.IO_METHOD_MMAP =>
    let buf : v4l2_buffer :=
      { CLEAR with type := V4L2_BUF_TYPE_VIDEO_CAPTURE, memory := V4L2_MEMORY_MMAP }
    match xioctl s.fd (to_int VIDIOC_DQBUF) buf s with
    | (none, s1) => (Exit.blocked, s1)
    | (some (r, buf1), s1) =>
      if r = -1 then
        if s1.errno = EAGAIN then (Exit.ret 0, s1)
        else if s1.errno = EIO then errno_exit "VIDIOC_DQBUF" s1
        else errno_exit "VIDIOC_DQBUF" s1
      else if buf1.index < s1.n_buffers then
        let s2 := process_image (s1.buffers buf1.index).start buf1.bytesused s1
        match xioctl s2.fd (to_int VIDIOC_QBUF) buf1 s2 with
        | (none, s3) => (Exit.blocked, s3)
        | (some (q, _), s3) =>
          if q = -1 then errno_exit "VIDIOC_QBUF" s3 else (Exit.ret 1, s3)
      else (Exit.assert_fail, s1)
  | io_method.IO_METHOD_USERPTR =>
    let buf : v4l2_buffer :=
      { CLEAR with type := V4L2_BUF_TYPE_VIDEO_CAPTURE, memory := V4L2_MEMORY_USERPTR }
    match xioctl s.fd (to_int VIDIOC_DQBUF) buf s with
    | (none, s1) => (Exit.blocked, s1)
    | (some (r, buf1), s1) =>
      if r = -1 then
        if s1.errno = EAGAIN then (Exit.ret 0, s1)
        else if s1.errno = EIO then errno_exit "VIDIOC_DQBUF" s1
        else errno_exit "VIDIOC_DQBUF" s1
      else
        let i := userptr_scan s1.buffers buf1 s1.n_buffers 0
        if i < s1.n_buffers then
          let s2 := process_image buf1.userptr buf1.bytesused s1
          match xioctl s2.fd (to_int VIDIOC_QBUF) buf1 s2 with
          | (none, s3) => (Exit.blocked, s3)
          | (some (q, _), s3) =>
            if q = -1 then errno_exit "VIDIOC_QBUF" s3 else (Exit.ret 1, s3)
        else (Exit.assert_fail, s1)

/-- Calls of `read_frame` in a row, at most `n` of them, as a host loop makes
them: the next call is made only when the last one returned. -/
def read_frames : Nat → State → List Exit × State
  | 0, s => ([], s)
  | n + 1, s =>
    match read_frame s with
    | (Exit.ret v, s1) => (Exit.ret v :: (read_frames n s1).1, (read_frames n s1).2)
    | (e, s1) => ([e], s1)

/-! ## `open_device` and the constructor -/

/-- An answer to `stat`: failure with `errno`, or the `st_mode` of the file. -/
inductive StatAnswer where
  | fail (errno : Int)
  | ok (st_mode : Nat)
deriving DecidableEq, Repr

/-- An answer to `open`: failure with `errno`, or the new descriptor. -/
inductive OpenAnswer where
  | fail (errno : Int)
  | ok (fd : Nat)
deriving DecidableEq, Repr

/-- The file system and the C library as `open_device` sees them. -/
structure Host where
  stat : String → StatAnswer
  open_ : String → Nat → Nat → OpenAnswer
  strerror : Int → String

/-- What `open_device` does to the outside: system calls and lines given to
the logger at level `LERROR`. -/
inductive Call where
  | stat (path : String)
  | open_ (path : String) (flags : Nat) (mode : Nat)
  | lerror (line : String)
deriving DecidableEq, Repr

/-- The name `snprintf(dev_name, sizeof(dev_name), "/dev/video%zu", device)`
leaves in `char dev_name[16]`: at most 15 characters. -/
def dev_name (device : Nat) : String :=
  String.mk (("/dev/video" ++ toString device).toList.take 15)

/-- The function `open_device`: the value it returns and the calls it made. -/
def open_device (h : Host) (device : Nat) : Int × List Call :=
  match h.stat (dev_name device) with
  | StatAnswer.fail e =>
    (-1, [Call.stat (dev_name device),
          Call.lerror (" Cannot identify " ++ dev_name device ++ " : " ++ toString e ++ " "
            ++ h.strerror e)])
  | StatAnswer.ok st_mode =>
    if !S_ISCHR st_mode then
      (-1, [Call.stat (dev_name device), Call.lerror (dev_name device ++ " is no device")])
    else
      match h.open_ (dev_name device) (Nat.lor O_RDWR O_NONBLOCK) 0 with
      | OpenAnswer.fail e =>
        (-1, [Call.stat (dev_name device),
              Call.open_ (dev_name device) (Nat.lor O_RDWR O_NONBLOCK) 0,
              Call.lerror ("Cannot open " ++ dev_name device ++ " : " ++ toString e ++ " "
                ++ h.strerror e)])
      | OpenAnswer.ok fd =>
        ((fd : Int), [Call.stat (dev_name device),
                      Call.open_ (dev_name device) (Nat.lor O_RDWR O_NONBLOCK) 0])

/-- The calls of `open` among the calls made. -/
def Call.is_open : Call → Bool
  | Call.open_ _ _ _ => true
  | _ => false

/-- A host with one capture device: `/dev/video0` is a character device
(mode `crw-rw----`) and opening it gives descriptor 3; `/dev/video1` is a
regular file; `/dev/video2` is a character device that is busy (errno 16);
no other path exists (errno 2). -/
def one_camera : Host :=
  { stat := fun path =>
      if path = "/dev/video0" then StatAnswer.ok 0o020660
      else if path = "/dev/video1" then StatAnswer.ok 0o100644
      else if path = "/dev/video2" then StatAnswer.ok 0o020660
      else StatAnswer.fail 2,
    open_ := fun path _ _ =>
      if path = "/dev/video0" then OpenAnswer.ok 3
      else if path = "/dev/video2" then OpenAnswer.fail 16
      else OpenAnswer.fail 2,
    strerror := fun _ => "" }

end v4l2_impl

/-- The class `v4l2_capture`: its one member, with the initializer `fd{-1}`. -/
structure v4l2_capture where
  fd : Int := -1
deriving DecidableEq, Repr

set_option linter.dupNamespace false in
/-- The constructor `v4l2_capture::v4l2_capture(device)`.  Its statement is
`if ((fd = open_device(device) < 0)) return;`, and `<` binds tighter than `=`:
the member receives the value of the comparison. -/
def v4l2_capture.v4l2_capture (h : v4l2_impl.Host) (device : Nat) : v4l2_capture :=
  { fd := if (v4l2_impl.open_device h device).1 < 0 then 1 else 0 }

namespace v4l2_impl

/-! ## Reading the trace -/

/-- The value `xioctl` returns for the answer that ends its loop. -/
def Response.ret_val : Response → Int
  | Response.fail _ => -1
  | Response.ok v _ => (v : Int)

/-- The structure behind `arg` after a call on `arg` that got the answer. -/
def Response.arg_after (arg : v4l2_buffer) : Response → v4l2_buffer
  | Response.fail _ => arg
  | Response.ok _ out => out

/-- The value of `errno` after `k` interrupted calls and a call that got the
answer `r`, when it was `e0` before. -/
def Response.errno_after (e0 : Int) (k : Nat) : Response → Int
  | Response.fail e => e
  | Response.ok _ _ => if k = 0 then e0 else EINTR

/-- The trace of `k` calls of `ioctl` that a signal interrupted. -/
def interrupted (fh : Int) (request : Int) (arg : v4l2_buffer) (k : Nat) : List Event :=
  List.replicate k (Event.ioctl fh request arg (some (Response.fail EINTR)))

/-- The structure `read_frame` passes to `VIDIOC_DQBUF`. -/
def dqbuf_request : io_method → v4l2_buffer
  | io_method.IO_METHOD_USERPTR =>
    { CLEAR with type := V4L2_BUF_TYPE_VIDEO_CAPTURE, memory := V4L2_MEMORY_USERPTR }
  | _ => { CLEAR with type := V4L2_BUF_TYPE_VIDEO_CAPTURE, memory := V4L2_MEMORY_MMAP }

/-- The scripts on which the dequeue step of `read_frame` ends with the answer
`r`: `read` is called once and takes the first answer; `xioctl` takes it after
`k` calls of `ioctl` that a signal interrupted. -/
def dequeue_script (io : io_method) (k : Nat) (r : Response) (rest : List Response) :
    List Response :=
  match io with
  | io_method.IO_METHOD_READ => r :: rest
  | _ => List.replicate k (Response.fail EINTR) ++ r :: rest

/-- The trace of the dequeue step of `read_frame` on such a script. -/
def dequeue_events (s : State) (k : Nat) (r : Response) : List Event :=
  match s.io with
  | io_method.IO_METHOD_READ =>
    [Event.read s.fd (s.buffers 0).start (s.buffers 0).length (some r)]
  | _ =>
    interrupted s.fd (to_int VIDIOC_DQBUF) (dqbuf_request s.io) k ++
      [Event.ioctl s.fd (to_int VIDIOC_DQBUF) (dqbuf_request s.io) (some r)]

/-- A dequeued structure names a buffer of the table: for `IO_METHOD_MMAP` its
index is below `n_buffers`, for `IO_METHOD_USERPTR` some entry below
`n_buffers` has its address and its length. -/
def recognized (s : State) (b : v4l2_buffer) : Prop :=
  match s.io with
  | io_method.IO_METHOD_READ => False
  | io_method.IO_METHOD_MMAP => b.index < s.n_buffers
  | io_method.IO_METHOD_USERPTR =>
    ∃ i, i < s.n_buffers ∧ (s.buffers i).start = b.userptr ∧ (s.buffers i).length = b.length

/-- The address `read_frame` passes to `process_image` for a dequeued
structure. -/
def frame_address (s : State) (b : v4l2_buffer) : Nat :=
  match s.io with
  | io_method.IO_METHOD_MMAP => (s.buffers b.index).start
  | _ => b.userptr

/-- The state after a dequeue step through `xioctl` that ended with the
answer `r` after `k` interrupted calls. -/
def after_dequeue (s : State) (k : Nat) (r : Response) (rest : List Response) : State :=
  { s with errno := r.errno_after s.errno k, script := rest,
           trace := s.trace ++ dequeue_events s k r }

/-- The trace of the requeue step of `read_frame` for the structure `b`: `m`
interrupted calls and the call that got the answer `q`. -/
def requeue_events (s : State) (b : v4l2_buffer) (m : Nat) (q : Option Response) : List Event :=
  interrupted s.fd (to_int VIDIOC_QBUF) b m ++ [Event.ioctl s.fd (to_int VIDIOC_QBUF) b q]

/-- A table of four buffers of 4096 bytes, at the addresses 4096, 8192, ... -/
def four_buffers : Nat → buffer := fun i => { start := 4096 * (i + 1), length := 4096 }

/-- A session on descriptor 3 with the table `four_buffers`, before any call. -/
def session (io : io_method) (script : List Response) : State :=
  { io := io, fd := 3, buffers := four_buffers, n_buffers := 4, errno := 0,
    script := script, trace := [] }

/-- The trace entries that are calls of `process_image`. -/
def Event.is_process_image : Event → Bool
  | Event.process_image _ _ => true
  | _ => false

/-- The trace entries that are calls of `ioctl` a signal interrupted: `xioctl`
repeats such a call, so it is an attempt at a request, not a request made. -/
def Event.is_interrupted : Event → Bool
  | Event.ioctl _ _ _ (some (Response.fail e)) => e == EINTR
  | _ => false

/-- The trace without the interrupted attempts: one entry for every `read`,
every request made through `xioctl` and every call of `process_image`. -/
def requests (t : List Event) : List Event :=
  t.filter (fun e => !e.is_interrupted)

/-- One step of reading a capture trace in order.  The state is the structure
the last completed `VIDIOC_DQBUF` request delivered, until a completed
`VIDIOC_QBUF` request gives it back (`none`: nothing is held).  The result is
`none` when the entry breaks the order of the capture cycle: a `VIDIOC_QBUF`
call, interrupted or not, for anything but the structure held, a
`process_image` with nothing held, a `read`, or another request. -/
def follow_step (h : Option v4l2_buffer) : Event → Option (Option v4l2_buffer)
  | Event.process_image _ _ => if h.isSome then some h else none
  | Event.read _ _ _ _ => none
  | Event.ioctl _ request arg ans =>
    if request = to_int VIDIOC_DQBUF then
      if ans = some (Response.fail EINTR) then some h
      else
        match ans with
        | some (Response.ok _ out) => some (some out)
        | _ => some none
    else if request = to_int VIDIOC_QBUF then
      if h = some arg then
        if ans = some (Response.fail EINTR) then some h else some none
      else none
    else none

/-- Reading a capture trace in order, from the state `h`: the state at the
end, or `none` when some entry breaks the order. -/
def follow (h : Option v4l2_buffer) : List Event → Option (Option v4l2_buffer)
  | [] => some h
  | e :: t => (follow_step h e).bind (fun h1 => follow h1 t)

/-- The structure a driver that cycles through four mapped buffers returns for
frame `j`: buffer `j % 4`, filled with 4096 bytes. -/
def ready_frame (j : Nat) : v4l2_buffer :=
  { CLEAR with index := j % 4, type := V4L2_BUF_TYPE_VIDEO_CAPTURE, bytesused := 4096,
               sequence := j, memory := V4L2_MEMORY_MMAP, length := 4096 }

/-- The answers of a driver that always has a frame ready, for the frames
`j, j + 1, ...`, `n` of them: it delivers the frame and takes the buffer back. -/
def ready_script : Nat → Nat → List Response
  | 0, _ => []
  | n + 1, j =>
    Response.ok 0 (ready_frame j) :: Response.ok 0 (ready_frame j) :: ready_script n (j + 1)

/-- The trace expected of `n` calls of `read_frame` against that driver, on
descriptor 3 with the table `four_buffers`: for every frame one
`VIDIOC_DQBUF`, one `process_image` and one `VIDIOC_QBUF` of the buffer just
dequeued. -/
def ready_trace : Nat → Nat → List Event
  | 0, _ => []
  | n + 1, j =>
    Event.ioctl 3 (to_int VIDIOC_DQBUF) (dqbuf_request io_method.IO_METHOD_MMAP)
        (some (Response.ok 0 (ready_frame j))) ::
      Event.process_image (4096 * (j % 4 + 1)) 4096 ::
      Event.ioctl 3 (to_int VIDIOC_QBUF) (ready_frame j) (some (Response.ok 0 (ready_frame j))) ::
      ready_trace n (j + 1)

/-- The string `read_frame` passes to `errno_exit` when the dequeue step fails. -/
def dequeue_name : io_method → String
  | io_method.IO_METHOD_READ => "read"
  | _ => "VIDIOC_DQBUF"

/-! ## Lemmas on `xioctl` -/

theorem xioctl_loop_answered (k : Nat) :
    ∀ (fuel : Nat) (s : State) (fh request : Int) (arg : v4l2_buffer) (r : Response)
      (rest : List Response), k < fuel →
      s.script = List.replicate k (Response.fail EINTR) ++ r :: rest →
      r ≠ Response.fail EINTR →
      xioctl_loop fuel fh request arg s =
        (some (r.ret_val, r.arg_after arg),
         { s with errno := r.errno_after s.errno k, script := rest,
                  trace := s.trace ++ (interrupted fh request arg k ++
                    [Event.ioctl fh request arg (some r)]) }) := by
  induction k with
  | zero =>
    intro fuel s fh request arg r rest hf hs hr
    obtain ⟨f, rfl⟩ : ∃ f, fuel = f + 1 := ⟨fuel - 1, by omega⟩
    simp only [List.replicate_zero, List.nil_append] at hs
    cases r with
    | fail e =>
      have he : e ≠ EINTR := fun h => hr (by rw [h])
      simp [xioctl_loop, ioctl, hs, he, Response.ret_val, Response.arg_after,
        Response.errno_after, interrupted]
    | ok v out =>
      have hv : ¬ ((v : Int) = -1) := by omega
      simp [xioctl_loop, ioctl, hs, hv, Response.ret_val, Response.arg_after,
        Response.errno_after, interrupted]
  | succ k ih =>
    intro fuel s fh request arg r rest hf hs hr
    obtain ⟨f, rfl⟩ : ∃ f, fuel = f + 1 := ⟨fuel - 1, by omega⟩
    rw [List.replicate_succ, List.cons_append] at hs
    have hstep : xioctl_loop (f + 1) fh request arg s =
        xioctl_loop f fh request arg
          { s with errno := EINTR,
                   script := List.replicate k (Response.fail EINTR) ++ r :: rest,
                   trace := s.trace ++ [Event.ioctl fh request arg (some (Response.fail EINTR))] } := by
      simp [xioctl_loop, ioctl, hs]
    rw [hstep, ih f _ fh request arg r rest (by omega) rfl hr]
    cases r with
    | fail e => simp [Response.errno_after, interrupted, List.replicate_succ]
    | ok v out => simp [Response.errno_after, interrupted, List.replicate_succ]

theorem xioctl_answered (k : Nat) (s : State) (fh request : Int) (arg : v4l2_buffer)
    (r : Response) (rest : List Response)
    (hs : s.script = List.replicate k (Response.fail EINTR) ++ r :: rest)
    (hr : r ≠ Response.fail EINTR) :
    xioctl fh request arg s =
      (some (r.ret_val, r.arg_after arg),
       { s with errno := r.errno_after s.errno k, script := rest,
                trace := s.trace ++ (interrupted fh request arg k ++
                  [Event.ioctl fh request arg (some r)]) }) := by
  unfold xioctl
  apply xioctl_loop_answered k _ s fh request arg r rest _ hs hr
  rw [hs]; simp; omega

theorem xioctl_loop_unanswered (k : Nat) :
    ∀ (fuel : Nat) (s : State) (fh request : Int) (arg : v4l2_buffer), k < fuel →
      s.script = List.replicate k (Response.fail EINTR) →
      xioctl_loop fuel fh request arg s =
        (none,
         { s with errno := if k = 0 then s.errno else EINTR, script := [],
                  trace := s.trace ++ (interrupted fh request arg k ++
                    [Event.ioctl fh request arg none]) }) := by
  induction k with
  | zero =>
    intro fuel s fh request arg hf hs
    obtain ⟨f, rfl⟩ : ∃ f, fuel = f + 1 := ⟨fuel - 1, by omega⟩
    simp only [List.replicate_zero] at hs
    simp [xioctl_loop, ioctl, hs, interrupted]
  | succ k ih =>
    intro fuel s fh request arg hf hs
    obtain ⟨f, rfl⟩ : ∃ f, fuel = f + 1 := ⟨fuel - 1, by omega⟩
    rw [List.replicate_succ] at hs
    have hstep : xioctl_loop (f + 1) fh request arg s =
        xioctl_loop f fh request arg
          { s with errno := EINTR,
                   script := List.replicate k (Response.fail EINTR),
                   trace := s.trace ++ [Event.ioctl fh request arg (some (Response.fail EINTR))] } := by
      simp [xioctl_loop, ioctl, hs]
    rw [hstep, ih f _ fh request arg (by omega) rfl]
    simp [interrupted, List.replicate_succ]

theorem xioctl_unanswered (k : Nat) (s : State) (fh request : Int) (arg : v4l2_buffer)
    (hs : s.script = List.replicate k (Response.fail EINTR)) :
    xioctl fh request arg s =
      (none,
       { s with errno := if k = 0 then s.errno else EINTR, script := [],
                trace := s.trace ++ (interrupted fh request arg k ++
                  [Event.ioctl fh request arg none]) }) := by
  unfold xioctl
  apply xioctl_loop_unanswered k _ s fh request arg _ hs
  rw [hs]; simp

theorem script_split (l : List Response) :
    ∃ k tail, l = List.replicate k (Response.fail EINTR) ++ tail ∧
      (tail = [] ∨ ∃ r rest, tail = r :: rest ∧ r ≠ Response.fail EINTR) := by
  induction l with
  | nil => exact ⟨0, [], rfl, Or.inl rfl⟩
  | cons a l ih =>
    by_cases ha : a = Response.fail EINTR
    · obtain ⟨k, tail, hl, ht⟩ := ih
      refine ⟨k + 1, tail, ?_, ht⟩
      rw [ha, hl, List.replicate_succ, List.cons_append]
    · exact ⟨0, a :: l, rfl, Or.inr ⟨a, l, rfl, ha⟩⟩

theorem xioctl_fails_not_eintr (s s1 : State) (fh request : Int) (arg a : v4l2_buffer)
    (hx : xioctl fh request arg s = (some (-1, a), s1)) : s1.errno ≠ EINTR := by
  obtain ⟨k, tail, hs, ht⟩ := script_split s.script
  rcases ht with rfl | ⟨r, rest, rfl, hr⟩
  · rw [List.append_nil] at hs
    rw [xioctl_unanswered k s fh request arg hs] at hx
    cases hx
  · rw [xioctl_answered k s fh request arg r rest hs hr] at hx
    cases r with
    | fail e =>
      have he : e ≠ EINTR := fun h => hr (by rw [h])
      have h2 := congrArg (fun p => p.2.errno) hx
      simp only [Response.errno_after] at h2
      rw [← h2]; exact he
    | ok v out =>
      have h1 := congrArg (fun p => p.1) hx
      simp only [Response.ret_val, Option.some.injEq, Prod.mk.injEq] at h1
      omega

/-! ## Lemmas on the scan of the user buffers -/

theorem userptr_scan_found (buffers : Nat → buffer) (buf : v4l2_buffer) :
    ∀ (remaining i : Nat), userptr_scan buffers buf remaining i < i + remaining →
      (buffers (userptr_scan buffers buf remaining i)).start = buf.userptr ∧
      (buffers (userptr_scan buffers buf remaining i)).length = buf.length := by
  intro remaining
  induction remaining with
  | zero => intro i h; simp [userptr_scan] at h
  | succ n ih =>
    intro i h
    unfold userptr_scan at h ⊢
    split
    · next hm => exact ⟨hm.1.symm, hm.2.symm⟩
    · next hm =>
      rw [if_neg hm] at h
      exact ih (i + 1) (by omega)

theorem userptr_scan_lt (buffers : Nat → buffer) (buf : v4l2_buffer) :
    ∀ (remaining i j : Nat), i ≤ j → j < i + remaining →
      (buffers j).start = buf.userptr → (buffers j).length = buf.length →
      userptr_scan buffers buf remaining i < i + remaining := by
  intro remaining
  induction remaining with
  | zero => intro i j h1 h2; omega
  | succ n ih =>
    intro i j h1 h2 hs hl
    unfold userptr_scan
    split
    · omega
    · next hm =>
      have hij : i ≠ j := by
        intro h; subst h; exact hm ⟨hs.symm, hl.symm⟩
      have := ih (i + 1) j (by omega) (by omega) hs hl
      omega

theorem userptr_scan_lt_iff (s : State) (b : v4l2_buffer) :
    userptr_scan s.buffers b s.n_buffers 0 < s.n_buffers ↔
      ∃ i, i < s.n_buffers ∧ (s.buffers i).start = b.userptr ∧
        (s.buffers i).length = b.length := by
  constructor
  · intro h
    exact ⟨_, h, userptr_scan_found s.buffers b s.n_buffers 0 (by omega)⟩
  · rintro ⟨i, hi, hs, hl⟩
    have := userptr_scan_lt s.buffers b s.n_buffers 0 i (by omega) (by omega) hs hl
    omega

/-! ## Lemmas on the dequeue step -/

theorem eagain_ne_eintr : EAGAIN ≠ EINTR := by decide

theorem eio_ne_eintr : EIO ≠ EINTR := by decide

theorem eio_ne_eagain : EIO ≠ EAGAIN := by decide

theorem read_frame_dequeue_fail (s : State) (k : Nat) (e : Int) (rest : List Response)
    (hs : s.script = dequeue_script s.io k (Response.fail e) rest)
    (he : s.io ≠ io_method.IO_METHOD_READ → e ≠ EINTR) :
    read_frame s =
      (if e = EAGAIN then Exit.ret 0 else Exit.errno_exit (dequeue_name s.io),
       { s with errno := e, script := rest,
                trace := s.trace ++ dequeue_events s k (Response.fail e) }) := by
  cases hio : s.io with
  | IO_METHOD_READ =>
    rw [hio] at hs
    simp only [dequeue_script] at hs
    unfold read_frame errno_exit
    simp only [hio, read, hs, dequeue_events, dequeue_name]
    by_cases h1 : e = EAGAIN <;> simp [h1]
  | IO_METHOD_MMAP =>
    rw [hio] at hs he
    simp only [dequeue_script] at hs
    have hne : Response.fail e ≠ Response.fail EINTR := by
      intro h; injection h with h; exact he (by decide) h
    unfold read_frame errno_exit
    simp only [hio]
    rw [xioctl_answered k s _ _ _ _ rest hs hne]
    by_cases h1 : e = EAGAIN <;>
      simp [h1, Response.ret_val, Response.errno_after, dequeue_events, dequeue_name, hio,
        dqbuf_request]
  | IO_METHOD_USERPTR =>
    rw [hio] at hs he
    simp only [dequeue_script] at hs
    have hne : Response.fail e ≠ Response.fail EINTR := by
      intro h; injection h with h; exact he (by decide) h
    unfold read_frame errno_exit
    simp only [hio]
    rw [xioctl_answered k s _ _ _ _ rest hs hne]
    by_cases h1 : e = EAGAIN <;>
      simp [h1, Response.ret_val, Response.errno_after, dequeue_events, dequeue_name, hio,
        dqbuf_request]

theorem read_frame_unrecognized (s : State) (k v : Nat) (out : v4l2_buffer)
    (rest : List Response) (hio : s.io ≠ io_method.IO_METHOD_READ)
    (hs : s.script = List.replicate k (Response.fail EINTR) ++ Response.ok v out :: rest)
    (hrec : ¬ recognized s out) :
    read_frame s = (Exit.assert_fail, after_dequeue s k (Response.ok v out) rest) := by
  have hne : Response.ok v out ≠ Response.fail EINTR := by intro h; cases h
  have hv : ¬ ((v : Int) = -1) := by omega
  cases hio2 : s.io with
  | IO_METHOD_READ => exact absurd hio2 hio
  | IO_METHOD_MMAP =>
    have hr : ¬ out.index < s.n_buffers := by simpa [recognized, hio2] using hrec
    unfold read_frame errno_exit
    simp only [hio2]
    rw [xioctl_answered k s _ _ _ _ rest hs hne]
    simp [Response.ret_val, Response.arg_after, hv, hr, after_dequeue, dequeue_events, hio2,
      dqbuf_request]
  | IO_METHOD_USERPTR =>
    have hr : ¬ userptr_scan s.buffers out s.n_buffers 0 < s.n_buffers := by
      rw [userptr_scan_lt_iff]; simpa [recognized, hio2] using hrec
    unfold read_frame errno_exit
    simp only [hio2]
    rw [xioctl_answered k s _ _ _ _ rest hs hne]
    simp [Response.ret_val, Response.arg_after, hv, hr, after_dequeue, dequeue_events, hio2,
      dqbuf_request]

theorem read_frame_recognized (s : State) (k v : Nat) (out : v4l2_buffer)
    (rest : List Response)
    (hs : s.script = List.replicate k (Response.fail EINTR) ++ Response.ok v out :: rest)
    (hrec : recognized s out) :
    read_frame s =
      match xioctl s.fd (to_int VIDIOC_QBUF) out
          (process_image (frame_address s out) out.bytesused
            (after_dequeue s k (Response.ok v out) rest)) with
      | (none, s3) => (Exit.blocked, s3)
      | (some (q, _), s3) =>
        if q = -1 then (Exit.errno_exit "VIDIOC_QBUF", s3) else (Exit.ret 1, s3) := by
  have hne : Response.ok v out ≠ Response.fail EINTR := by intro h; cases h
  have hv : ¬ ((v : Int) = -1) := by omega
  cases hio2 : s.io with
  | IO_METHOD_READ => simp [recognized, hio2] at hrec
  | IO_METHOD_MMAP =>
    have hr : out.index < s.n_buffers := by simpa [recognized, hio2] using hrec
    unfold read_frame errno_exit
    simp only [hio2]
    rw [xioctl_answered k s _ _ _ _ rest hs hne]
    simp [Response.ret_val, Response.arg_after, hv, hr, after_dequeue, dequeue_events, hio2,
      dqbuf_request, frame_address, process_image]
  | IO_METHOD_USERPTR =>
    have hr : userptr_scan s.buffers out s.n_buffers 0 < s.n_buffers := by
      rw [userptr_scan_lt_iff]; simpa [recognized, hio2] using hrec
    unfold read_frame errno_exit
    simp only [hio2]
    rw [xioctl_answered k s _ _ _ _ rest hs hne]
    simp [Response.ret_val, Response.arg_after, hv, hr, after_dequeue, dequeue_events, hio2,
      dqbuf_request, frame_address, process_image]

theorem qbuf_ne_dqbuf : to_int VIDIOC_QBUF ≠ to_int VIDIOC_DQBUF := by decide

theorem dequeue_events_no_process_image (s : State) (k : Nat) (r : Response) (p n : Nat) :
    Event.process_image p n ∉ dequeue_events s k r := by
  cases hio : s.io <;> simp [dequeue_events, hio, interrupted]

theorem dequeue_events_no_qbuf (s : State) (k : Nat) (r : Response) (fh : Int)
    (arg : v4l2_buffer) (ans : Option Response) :
    Event.ioctl fh (to_int VIDIOC_QBUF) arg ans ∉ dequeue_events s k r := by
  have h := qbuf_ne_dqbuf
  cases hio : s.io <;> simp [dequeue_events, hio, interrupted, h]

theorem read_frame_requeue (s : State) (k v m : Nat) (out : v4l2_buffer) (q : Response)
    (rest : List Response)
    (hs : s.script = List.replicate k (Response.fail EINTR) ++ Response.ok v out ::
      (List.replicate m (Response.fail EINTR) ++ q :: rest))
    (hrec : recognized s out) (hq : q ≠ Response.fail EINTR) :
    read_frame s =
      (if q.ret_val = -1 then Exit.errno_exit "VIDIOC_QBUF" else Exit.ret 1,
       { s with errno := q.errno_after ((Response.ok v out).errno_after s.errno k) m,
                script := rest,
                trace := s.trace ++ (dequeue_events s k (Response.ok v out) ++
                  Event.process_image (frame_address s out) out.bytesused ::
                  requeue_events s out m (some q)) }) := by
  rw [read_frame_recognized s k v out _ hs hrec]
  rw [xioctl_answered m _ _ _ _ q rest (by simp [process_image, after_dequeue]) hq]
  by_cases h : q.ret_val = -1 <;>
    simp [h, process_image, after_dequeue, requeue_events]

theorem read_frame_requeue_unanswered (s : State) (k v m : Nat) (out : v4l2_buffer)
    (hs : s.script = List.replicate k (Response.fail EINTR) ++ Response.ok v out ::
      List.replicate m (Response.fail EINTR))
    (hrec : recognized s out) :
    read_frame s =
      (Exit.blocked,
       { s with errno := if m = 0 then (Response.ok v out).errno_after s.errno k else EINTR,
                script := [],
                trace := s.trace ++ (dequeue_events s k (Response.ok v out) ++
                  Event.process_image (frame_address s out) out.bytesused ::
                  requeue_events s out m none) }) := by
  rw [read_frame_recognized s k v out _ hs hrec]
  rw [xioctl_unanswered m _ _ _ _ (by simp [process_image, after_dequeue])]
  simp [process_image, after_dequeue, requeue_events]

theorem read_frame_dequeue_unanswered (s : State) (k : Nat)
    (hio : s.io ≠ io_method.IO_METHOD_READ)
    (hs : s.script = List.replicate k (Response.fail EINTR)) :
    read_frame s =
      (Exit.blocked,
       { s with errno := if k = 0 then s.errno else EINTR, script := [],
                trace := s.trace ++ (interrupted s.fd (to_int VIDIOC_DQBUF) (dqbuf_request s.io) k
                  ++ [Event.ioctl s.fd (to_int VIDIOC_DQBUF) (dqbuf_request s.io) none]) }) := by
  cases hio2 : s.io with
  | IO_METHOD_READ => exact absurd hio2 hio
  | IO_METHOD_MMAP =>
    unfold read_frame errno_exit
    simp only [hio2]
    rw [xioctl_unanswered k s _ _ _ hs]
    simp [dqbuf_request, hio2]
  | IO_METHOD_USERPTR =>
    unfold read_frame errno_exit
    simp only [hio2]
    rw [xioctl_unanswered k s _ _ _ hs]
    simp [dqbuf_request, hio2]

theorem requests_interrupted (fh request : Int) (arg : v4l2_buffer) (k : Nat) :
    requests (interrupted fh request arg k) = [] := by
  simp [requests, interrupted, Event.is_interrupted, List.filter_replicate]

theorem requests_append (a b : List Event) : requests (a ++ b) = requests a ++ requests b := by
  simp [requests]

/-! ## The claims on a failing dequeue step -/

/-- C1, as the code has it: for every transport strategy, when the dequeue step
of `read_frame` fails with `errno` `EIO`, the call is not treated as transient.
The case `EIO` falls through to `default`: the call ends in `errno_exit`
(`"read"` for `IO_METHOD_READ`, `"VIDIOC_DQBUF"` otherwise) and returns
nothing; the trace grows by the calls of the dequeue step alone, so no frame
goes to `process_image` and no `VIDIOC_QBUF` is issued. -/
theorem read_frame_eio_is_fatal (s : State) (k : Nat) (rest : List Response)
    (hs : s.script = dequeue_script s.io k (Response.fail EIO) rest) :
    (read_frame s).1 = Exit.errno_exit (dequeue_name s.io) ∧
    (∀ v, (read_frame s).1 ≠ Exit.ret v) ∧
    (read_frame s).2.trace = s.trace ++ dequeue_events s k (Response.fail EIO) ∧
    (∀ p n, Event.process_image p n ∉ dequeue_events s k (Response.fail EIO)) ∧
    (∀ fh arg ans,
      Event.ioctl fh (to_int VIDIOC_QBUF) arg ans ∉ dequeue_events s k (Response.fail EIO)) := by
  have h := read_frame_dequeue_fail s k EIO rest hs (fun _ => eio_ne_eintr)
  rw [if_neg eio_ne_eagain] at h
  refine ⟨by rw [h], ?_, by rw [h], ?_, ?_⟩
  · intro v hv; rw [h] at hv; cases hv
  · exact dequeue_events_no_process_image s k _
  · exact dequeue_events_no_qbuf s k _

/-- C1, witness: a memory-mapped session whose `VIDIOC_DQBUF` is interrupted
once and then fails with `EIO`. -/
theorem read_frame_eio_is_fatal_witness :
    (session io_method.IO_METHOD_MMAP [Response.fail EINTR, Response.fail EIO]).script =
      dequeue_script io_method.IO_METHOD_MMAP 1 (Response.fail EIO) [] ∧
    (read_frame (session io_method.IO_METHOD_MMAP [Response.fail EINTR, Response.fail EIO])).1 =
      Exit.errno_exit "VIDIOC_DQBUF" :=
  ⟨rfl, (read_frame_eio_is_fatal
    (session io_method.IO_METHOD_MMAP [Response.fail EINTR, Response.fail EIO]) 1 [] rfl).1⟩

/-- C1, counterexample: in each of the three strategies the dequeue step fails
with `EIO` at once, and `read_frame` does not return 0: it ends in
`errno_exit`. -/
theorem read_frame_eio_not_transient :
    (read_frame (session io_method.IO_METHOD_READ [Response.fail EIO])).1 =
      Exit.errno_exit "read" ∧
    (read_frame (session io_method.IO_METHOD_MMAP [Response.fail EIO])).1 =
      Exit.errno_exit "VIDIOC_DQBUF" ∧
    (read_frame (session io_method.IO_METHOD_USERPTR [Response.fail EIO])).1 =
      Exit.errno_exit "VIDIOC_DQBUF" ∧
    (read_frame (session io_method.IO_METHOD_READ [Response.fail EIO])).1 ≠ Exit.ret 0 ∧
    (read_frame (session io_method.IO_METHOD_MMAP [Response.fail EIO])).1 ≠ Exit.ret 0 ∧
    (read_frame (session io_method.IO_METHOD_USERPTR [Response.fail EIO])).1 ≠ Exit.ret 0 := by
  decide

/-- C2: for every transport strategy, when the dequeue step of `read_frame`
fails with `errno` `EAGAIN`, the call returns 0; the trace grows by the calls of
the dequeue step alone, so `process_image` is not invoked and no `VIDIOC_QBUF`
is issued; the table `buffers` and `n_buffers` are unchanged. -/
theorem read_frame_eagain_returns_zero (s : State) (k : Nat) (rest : List Response)
    (hs : s.script = dequeue_script s.io k (Response.fail EAGAIN) rest) :
    (read_frame s).1 = Exit.ret 0 ∧
    (read_frame s).2.trace = s.trace ++ dequeue_events s k (Response.fail EAGAIN) ∧
    (∀ p n, Event.process_image p n ∉ dequeue_events s k (Response.fail EAGAIN)) ∧
    (∀ fh arg ans,
      Event.ioctl fh (to_int VIDIOC_QBUF) arg ans ∉
        dequeue_events s k (Response.fail EAGAIN)) ∧
    (read_frame s).2.buffers = s.buffers ∧
    (read_frame s).2.n_buffers = s.n_buffers := by
  have h := read_frame_dequeue_fail s k EAGAIN rest hs (fun _ => eagain_ne_eintr)
  rw [if_pos rfl] at h
  refine ⟨by rw [h], by rw [h], ?_, ?_, by rw [h], by rw [h]⟩
  · exact dequeue_events_no_process_image s k _
  · exact dequeue_events_no_qbuf s k _

/-- C2, witness: a user-pointer session whose `VIDIOC_DQBUF` is interrupted
twice and then fails with `EAGAIN`. -/
theorem read_frame_eagain_returns_zero_witness :
    (session io_method.IO_METHOD_USERPTR
        [Response.fail EINTR, Response.fail EINTR, Response.fail EAGAIN]).script =
      dequeue_script io_method.IO_METHOD_USERPTR 2 (Response.fail EAGAIN) [] ∧
    (read_frame (session io_method.IO_METHOD_USERPTR
        [Response.fail EINTR, Response.fail EINTR, Response.fail EAGAIN])).1 = Exit.ret 0 :=
  ⟨rfl, (read_frame_eagain_returns_zero
    (session io_method.IO_METHOD_USERPTR
      [Response.fail EINTR, Response.fail EINTR, Response.fail EAGAIN]) 2 [] rfl).1⟩

/-- C10: for every transport strategy and every `errno` other than `EAGAIN`
and `EIO`, a dequeue step of `read_frame` that fails (`read` returns -1, or
`xioctl` returns -1 for `VIDIOC_DQBUF`, which it never does with `EINTR`) is
fatal: the call ends in `errno_exit` and returns neither 0 nor 1; the trace
grows by the calls of the dequeue step alone, so `process_image` is not
invoked and no `VIDIOC_QBUF` is issued. -/
theorem read_frame_other_errno_is_fatal (s : State) (k : Nat) (e : Int)
    (rest : List Response)
    (hs : s.script = dequeue_script s.io k (Response.fail e) rest)
    (hx : s.io ≠ io_method.IO_METHOD_READ → e ≠ EINTR)
    (h1 : e ≠ EAGAIN) (_h2 : e ≠ EIO) :
    (read_frame s).1 = Exit.errno_exit (dequeue_name s.io) ∧
    (read_frame s).1 ≠ Exit.ret 0 ∧ (read_frame s).1 ≠ Exit.ret 1 ∧
    (read_frame s).2.trace = s.trace ++ dequeue_events s k (Response.fail e) ∧
    (∀ p n, Event.process_image p n ∉ dequeue_events s k (Response.fail e)) ∧
    (∀ fh arg ans,
      Event.ioctl fh (to_int VIDIOC_QBUF) arg ans ∉ dequeue_events s k (Response.fail e)) := by
  have h := read_frame_dequeue_fail s k e rest hs hx
  rw [if_neg h1] at h
  refine ⟨by rw [h], ?_, ?_, by rw [h], ?_, ?_⟩
  · intro hv; rw [h] at hv; cases hv
  · intro hv; rw [h] at hv; cases hv
  · exact dequeue_events_no_process_image s k _
  · exact dequeue_events_no_qbuf s k _

/-- C10, witness: a direct-read session whose `read` fails with `EINTR`
(errno 4), which `read_frame` does not retry. -/
theorem read_frame_other_errno_is_fatal_witness :
    (session io_method.IO_METHOD_READ [Response.fail 4]).script =
      dequeue_script io_method.IO_METHOD_READ 0 (Response.fail 4) [] ∧
    (read_frame (session io_method.IO_METHOD_READ [Response.fail 4])).1 =
      Exit.errno_exit "read" :=
  ⟨rfl, (read_frame_other_errno_is_fatal
    (session io_method.IO_METHOD_READ [Response.fail 4]) 0 4 [] rfl
    (fun h => absurd rfl h) (by decide) (by decide)).1⟩

/-! ## The claims on a dequeue step that succeeds -/

/-- C3: when `VIDIOC_DQBUF` succeeds in `read_frame` but returns a structure
that names no buffer of the table (`IO_METHOD_MMAP`: its index is not below
`n_buffers`; `IO_METHOD_USERPTR`: no `i < n_buffers` has
`buffers[i].start == buf.m.userptr` and `buffers[i].length == buf.length`), the
call ends in the failed `assert` and does not return 1; the trace grows by the
calls of the dequeue step alone, so `process_image` is not invoked and no
`VIDIOC_QBUF` is issued. -/
theorem read_frame_unrecognized_is_fatal (s : State) (k v : Nat) (out : v4l2_buffer)
    (rest : List Response)
    (hs : s.script = List.replicate k (Response.fail EINTR) ++ Response.ok v out :: rest)
    (hu : (s.io = io_method.IO_METHOD_MMAP ∧ s.n_buffers ≤ out.index) ∨
      (s.io = io_method.IO_METHOD_USERPTR ∧
        ∀ i, i < s.n_buffers →
          ¬ ((s.buffers i).start = out.userptr ∧ (s.buffers i).length = out.length))) :
    (read_frame s).1 = Exit.assert_fail ∧
    (read_frame s).1 ≠ Exit.ret 1 ∧
    (read_frame s).2.trace = s.trace ++ dequeue_events s k (Response.ok v out) ∧
    (∀ p n, Event.process_image p n ∉ dequeue_events s k (Response.ok v out)) ∧
    (∀ fh arg ans,
      Event.ioctl fh (to_int VIDIOC_QBUF) arg ans ∉
        dequeue_events s k (Response.ok v out)) := by
  have hio : s.io ≠ io_method.IO_METHOD_READ := by
    rcases hu with ⟨h, _⟩ | ⟨h, _⟩ <;> rw [h] <;> decide
  have hrec : ¬ recognized s out := by
    rcases hu with ⟨h, hn⟩ | ⟨h, hn⟩
    · simp only [recognized, h]; omega
    · simp only [recognized, h]
      rintro ⟨i, hi, h1, h2⟩
      exact hn i hi ⟨h1, h2⟩
  have h := read_frame_unrecognized s k v out rest hio hs hrec
  refine ⟨by rw [h], ?_, by rw [h]; rfl, ?_, ?_⟩
  · intro hv; rw [h] at hv; cases hv
  · exact dequeue_events_no_process_image s k _
  · exact dequeue_events_no_qbuf s k _

/-- C3, witness: a memory-mapped session with four buffers whose driver
returns index 4. -/
theorem read_frame_unrecognized_is_fatal_witness :
    (session io_method.IO_METHOD_MMAP [Response.ok 0 { CLEAR with index := 4 }]).script =
      List.replicate 0 (Response.fail EINTR) ++ [Response.ok 0 { CLEAR with index := 4 }] ∧
    (read_frame
      (session io_method.IO_METHOD_MMAP [Response.ok 0 { CLEAR with index := 4 }])).1 =
      Exit.assert_fail :=
  ⟨rfl, (read_frame_unrecognized_is_fatal
    (session io_method.IO_METHOD_MMAP [Response.ok 0 { CLEAR with index := 4 }]) 0 0
    { CLEAR with index := 4 } [] rfl (Or.inl ⟨rfl, by decide⟩)).1⟩

/-- C4: for `IO_METHOD_MMAP` and `IO_METHOD_USERPTR`, when `VIDIOC_DQBUF`
succeeds with a structure that names a buffer of the table and the
`VIDIOC_QBUF` that follows succeeds, the call returns 1 and its trace is, in
this order: the `VIDIOC_DQBUF` request (its `k` interrupted attempts and the
call that succeeded), one `process_image(address, buf.bytesused)`, and the
`VIDIOC_QBUF` request on the structure that was dequeued (its `m` interrupted
attempts and the call that succeeded).  Interrupted attempts aside these are
three entries, and they are the whole trace when no signal arrives.  The
address is `buffers[buf.index].start` for `IO_METHOD_MMAP`; for
`IO_METHOD_USERPTR` it is `buf.m.userptr`, the `start` of the entry the scan
stops at, which lies below `n_buffers`. -/
theorem read_frame_delivers_then_requeues (s : State) (k v m w : Nat)
    (out out2 : v4l2_buffer) (rest : List Response)
    (hs : s.script = List.replicate k (Response.fail EINTR) ++ Response.ok v out ::
      (List.replicate m (Response.fail EINTR) ++ Response.ok w out2 :: rest))
    (hr : (s.io = io_method.IO_METHOD_MMAP ∧ out.index < s.n_buffers) ∨
      (s.io = io_method.IO_METHOD_USERPTR ∧
        ∃ i, i < s.n_buffers ∧ (s.buffers i).start = out.userptr ∧
          (s.buffers i).length = out.length)) :
    (read_frame s).1 = Exit.ret 1 ∧
    (read_frame s).2.trace =
      s.trace ++ (dequeue_events s k (Response.ok v out) ++
        Event.process_image (frame_address s out) out.bytesused ::
        requeue_events s out m (some (Response.ok w out2))) ∧
    requests (dequeue_events s k (Response.ok v out) ++
        Event.process_image (frame_address s out) out.bytesused ::
        requeue_events s out m (some (Response.ok w out2))) =
      [Event.ioctl s.fd (to_int VIDIOC_DQBUF) (dqbuf_request s.io) (some (Response.ok v out)),
       Event.process_image (frame_address s out) out.bytesused,
       Event.ioctl s.fd (to_int VIDIOC_QBUF) out (some (Response.ok w out2))] ∧
    (k = 0 → m = 0 → (read_frame s).2.trace = s.trace ++
      [Event.ioctl s.fd (to_int VIDIOC_DQBUF) (dqbuf_request s.io) (some (Response.ok v out)),
       Event.process_image (frame_address s out) out.bytesused,
       Event.ioctl s.fd (to_int VIDIOC_QBUF) out (some (Response.ok w out2))]) ∧
    (s.io = io_method.IO_METHOD_MMAP → frame_address s out = (s.buffers out.index).start) ∧
    (s.io = io_method.IO_METHOD_USERPTR →
      frame_address s out = out.userptr ∧
      userptr_scan s.buffers out s.n_buffers 0 < s.n_buffers ∧
      (s.buffers (userptr_scan s.buffers out s.n_buffers 0)).start = out.userptr ∧
      (s.buffers (userptr_scan s.buffers out s.n_buffers 0)).length = out.length) := by
  have hrec : recognized s out := by
    rcases hr with ⟨h, hn⟩ | ⟨h, hn⟩
    · simpa only [recognized, h] using hn
    · simpa only [recognized, h] using hn
  have hio : s.io ≠ io_method.IO_METHOD_READ := by
    rcases hr with ⟨h, _⟩ | ⟨h, _⟩ <;> rw [h] <;> decide
  have hq : Response.ok w out2 ≠ Response.fail EINTR := by intro h; cases h
  have hw : ¬ ((w : Int) = -1) := by omega
  have h := read_frame_requeue s k v m out (Response.ok w out2) rest hs hrec hq
  simp only [Response.ret_val, hw, if_false] at h
  have hreq : requests (dequeue_events s k (Response.ok v out) ++
        Event.process_image (frame_address s out) out.bytesused ::
        requeue_events s out m (some (Response.ok w out2))) =
      [Event.ioctl s.fd (to_int VIDIOC_DQBUF) (dqbuf_request s.io) (some (Response.ok v out)),
       Event.process_image (frame_address s out) out.bytesused,
       Event.ioctl s.fd (to_int VIDIOC_QBUF) out (some (Response.ok w out2))] := by
    have hd : dequeue_events s k (Response.ok v out) =
        interrupted s.fd (to_int VIDIOC_DQBUF) (dqbuf_request s.io) k ++
          [Event.ioctl s.fd (to_int VIDIOC_DQBUF) (dqbuf_request s.io)
            (some (Response.ok v out))] := by
      cases hio2 : s.io with
      | IO_METHOD_READ => exact absurd hio2 hio
      | IO_METHOD_MMAP => simp [dequeue_events, hio2]
      | IO_METHOD_USERPTR => simp [dequeue_events, hio2]
    rw [hd, requeue_events]
    rw [requests_append, requests_append, requests_interrupted]
    have hc : ∀ (e : Event) (l : List Event), e :: l = [e] ++ l := fun _ _ => rfl
    rw [hc (Event.process_image _ _), requests_append, requests_append, requests_interrupted]
    simp [requests, Event.is_interrupted]
  refine ⟨by rw [h], by rw [h], hreq, ?_, ?_, ?_⟩
  · intro hk hm
    subst hk; subst hm
    rw [h]
    cases hio2 : s.io with
    | IO_METHOD_READ => exact absurd hio2 hio
    | IO_METHOD_MMAP => simp [dequeue_events, requeue_events, interrupted, hio2]
    | IO_METHOD_USERPTR => simp [dequeue_events, requeue_events, interrupted, hio2]
  · intro h1; simp [frame_address, h1]
  · intro h1
    have hlt : userptr_scan s.buffers out s.n_buffers 0 < s.n_buffers := by
      rw [userptr_scan_lt_iff]; simpa only [recognized, h1] using hrec
    have hf := userptr_scan_found s.buffers out s.n_buffers 0 (by omega)
    exact ⟨by simp [frame_address, h1], hlt, hf.1, hf.2⟩

/-- C4, witness: a memory-mapped session with four buffers; the driver returns
buffer 2 with 1000 bytes, and takes it back. -/
theorem read_frame_delivers_then_requeues_witness :
    (session io_method.IO_METHOD_MMAP
        [Response.ok 0 { CLEAR with index := 2, bytesused := 1000 },
         Response.ok 0 { CLEAR with index := 2, bytesused := 1000 }]).script =
      List.replicate 0 (Response.fail EINTR) ++
        Response.ok 0 { CLEAR with index := 2, bytesused := 1000 } ::
        (List.replicate 0 (Response.fail EINTR) ++
          [Response.ok 0 { CLEAR with index := 2, bytesused := 1000 }]) ∧
    (read_frame (session io_method.IO_METHOD_MMAP
        [Response.ok 0 { CLEAR with index := 2, bytesused := 1000 },
         Response.ok 0 { CLEAR with index := 2, bytesused := 1000 }])).1 = Exit.ret 1 :=
  ⟨rfl, (read_frame_delivers_then_requeues
    (session io_method.IO_METHOD_MMAP
      [Response.ok 0 { CLEAR with index := 2, bytesused := 1000 },
       Response.ok 0 { CLEAR with index := 2, bytesused := 1000 }]) 0 0 0 0
    { CLEAR with index := 2, bytesused := 1000 }
    { CLEAR with index := 2, bytesused := 1000 } [] rfl (Or.inl ⟨rfl, by decide⟩)).1⟩

/-- C9: for `IO_METHOD_MMAP` and `IO_METHOD_USERPTR`, when the `VIDIOC_QBUF`
for the buffer just delivered fails (`xioctl` returns -1, with any `errno`: it
is never `EINTR`), the call ends in `errno_exit("VIDIOC_QBUF")` and returns
neither 1 nor 0, and its trace holds exactly one call of `process_image`, made
before the `VIDIOC_QBUF` request. -/
theorem read_frame_requeue_failure_is_fatal (s : State) (k v m : Nat) (e : Int)
    (out : v4l2_buffer) (rest : List Response)
    (hs : s.script = List.replicate k (Response.fail EINTR) ++ Response.ok v out ::
      (List.replicate m (Response.fail EINTR) ++ Response.fail e :: rest))
    (he : e ≠ EINTR)
    (hr : (s.io = io_method.IO_METHOD_MMAP ∧ out.index < s.n_buffers) ∨
      (s.io = io_method.IO_METHOD_USERPTR ∧
        ∃ i, i < s.n_buffers ∧ (s.buffers i).start = out.userptr ∧
          (s.buffers i).length = out.length)) :
    (read_frame s).1 = Exit.errno_exit "VIDIOC_QBUF" ∧
    (read_frame s).1 ≠ Exit.ret 1 ∧ (read_frame s).1 ≠ Exit.ret 0 ∧
    (read_frame s).2.trace =
      s.trace ++ (dequeue_events s k (Response.ok v out) ++
        Event.process_image (frame_address s out) out.bytesused ::
        requeue_events s out m (some (Response.fail e))) ∧
    (dequeue_events s k (Response.ok v out) ++
        Event.process_image (frame_address s out) out.bytesused ::
        requeue_events s out m (some (Response.fail e))).countP Event.is_process_image = 1 := by
  have hrec : recognized s out := by
    rcases hr with ⟨h, hn⟩ | ⟨h, hn⟩
    · simpa only [recognized, h] using hn
    · simpa only [recognized, h] using hn
  have hq : Response.fail e ≠ Response.fail EINTR := by
    intro h; injection h with h; exact he h
  have h := read_frame_requeue s k v m out (Response.fail e) rest hs hrec hq
  simp only [Response.ret_val, if_true] at h
  refine ⟨by rw [h], ?_, ?_, by rw [h], ?_⟩
  · intro hv; rw [h] at hv; cases hv
  · intro hv; rw [h] at hv; cases hv
  · cases hio2 : s.io <;>
      simp [dequeue_events, requeue_events, interrupted, hio2, List.countP_append,
        List.countP_cons, List.countP_replicate, Event.is_process_image]

/-- C9, witness: a user-pointer session; the driver returns the second buffer
of the table and then refuses it with `errno` 22. -/
theorem read_frame_requeue_failure_is_fatal_witness :
    (session io_method.IO_METHOD_USERPTR
        [Response.ok 0 { CLEAR with userptr := 8192, length := 4096 },
         Response.fail 22]).script =
      List.replicate 0 (Response.fail EINTR) ++
        Response.ok 0 { CLEAR with userptr := 8192, length := 4096 } ::
        (List.replicate 0 (Response.fail EINTR) ++ [Response.fail 22]) ∧
    (read_frame (session io_method.IO_METHOD_USERPTR
        [Response.ok 0 { CLEAR with userptr := 8192, length := 4096 },
         Response.fail 22])).1 = Exit.errno_exit "VIDIOC_QBUF" :=
  ⟨rfl, (read_frame_requeue_failure_is_fatal
    (session io_method.IO_METHOD_USERPTR
      [Response.ok 0 { CLEAR with userptr := 8192, length := 4096 }, Response.fail 22])
    0 0 0 22 { CLEAR with userptr := 8192, length := 4096 } [] rfl (by decide)
    (Or.inr ⟨rfl, 1, by decide, rfl, rfl⟩)).1⟩

/-! ## The claim on `xioctl` -/

/-- C7: `xioctl(fh, request, arg)` retries only when a signal interrupts the
call.  When the answers to come are `k` times (-1, `EINTR`) and then an answer
`r` that is not (-1, `EINTR`), `xioctl` returns; it has called `ioctl` exactly
`k + 1` times, each time with the same `fh`, `request` and `arg`; it returns
the value of `r`, with the `errno` and the structure `r` left, and the answers
after `r` are still to come.  With `k = 0`: a first answer -1 with an `errno`
other than `EINTR` is returned as -1 after one call of `ioctl`. -/
theorem xioctl_retries_only_on_eintr (s : State) (fh request : Int) (arg : v4l2_buffer)
    (k : Nat) (r : Response) (rest : List Response)
    (hs : s.script = List.replicate k (Response.fail EINTR) ++ r :: rest)
    (hr : r ≠ Response.fail EINTR) :
    (xioctl fh request arg s).1 = some (r.ret_val, r.arg_after arg) ∧
    (xioctl fh request arg s).2.errno = r.errno_after s.errno k ∧
    (xioctl fh request arg s).2.script = rest ∧
    (xioctl fh request arg s).2.trace =
      s.trace ++ (List.replicate k (Response.fail EINTR) ++ [r]).map
        (fun a => Event.ioctl fh request arg (some a)) ∧
    ((List.replicate k (Response.fail EINTR) ++ [r]).map
        (fun a => Event.ioctl fh request arg (some a))).length = k + 1 ∧
    (∀ e, r = Response.fail e → k = 0 →
      (xioctl fh request arg s).1 = some (-1, arg) ∧
      (xioctl fh request arg s).2.errno = e ∧
      (xioctl fh request arg s).2.trace =
        s.trace ++ [Event.ioctl fh request arg (some (Response.fail e))]) := by
  have h := xioctl_answered k s fh request arg r rest hs hr
  refine ⟨by rw [h], by rw [h], by rw [h], ?_, by simp, ?_⟩
  · rw [h]; simp [interrupted]
  · intro e hre hk
    subst hre; subst hk
    rw [h]
    simp [Response.ret_val, Response.arg_after, Response.errno_after, interrupted]

/-- C7, witness: three interruptions, then the driver fails with `EAGAIN`. -/
theorem xioctl_retries_only_on_eintr_witness :
    (session io_method.IO_METHOD_MMAP
        [Response.fail EINTR, Response.fail EINTR, Response.fail EINTR,
         Response.fail EAGAIN]).script =
      List.replicate 3 (Response.fail EINTR) ++ [Response.fail EAGAIN] ∧
    (xioctl 3 (to_int VIDIOC_DQBUF) CLEAR
      (session io_method.IO_METHOD_MMAP
        [Response.fail EINTR, Response.fail EINTR, Response.fail EINTR,
         Response.fail EAGAIN])).1 = some (-1, CLEAR) :=
  ⟨rfl, (xioctl_retries_only_on_eintr
    (session io_method.IO_METHOD_MMAP
      [Response.fail EINTR, Response.fail EINTR, Response.fail EINTR, Response.fail EAGAIN])
    3 (to_int VIDIOC_DQBUF) CLEAR 3 (Response.fail EAGAIN) [] rfl (by decide)).1⟩

/-! ## Lemmas on reading a trace in order -/

theorem follow_append (a b : List Event) :
    ∀ h, follow h (a ++ b) = (follow h a).bind (fun h1 => follow h1 b) := by
  induction a with
  | nil => intro h; simp [follow]
  | cons e t ih =>
    intro h
    simp only [List.cons_append, follow]
    cases follow_step h e with
    | none => simp
    | some h1 => simp [ih]

theorem follow_interrupted_dqbuf (fh : Int) (arg : v4l2_buffer) (k : Nat) (l : List Event)
    (h : Option v4l2_buffer) :
    follow h (interrupted fh (to_int VIDIOC_DQBUF) arg k ++ l) = follow h l := by
  induction k with
  | zero => simp [interrupted]
  | succ k ih =>
    simp only [interrupted, List.replicate_succ, List.cons_append, follow] at ih ⊢
    simp [follow_step, ih]

theorem follow_interrupted_qbuf (fh : Int) (b : v4l2_buffer) (m : Nat) (l : List Event) :
    follow (some b) (interrupted fh (to_int VIDIOC_QBUF) b m ++ l) = follow (some b) l := by
  have hne := qbuf_ne_dqbuf
  induction m with
  | zero => simp [interrupted]
  | succ m ih =>
    simp only [interrupted, List.replicate_succ, List.cons_append, follow] at ih ⊢
    simp [follow_step, ih, hne]

theorem follow_step_interrupted (h : Option v4l2_buffer) (e : Event) (h1 : Option v4l2_buffer)
    (hi : e.is_interrupted = true) (hf : follow_step h e = some h1) : h1 = h := by
  cases e with
  | read fd buf count ans => simp [Event.is_interrupted] at hi
  | process_image p n => simp [Event.is_interrupted] at hi
  | ioctl fh request arg ans =>
    have ha : ans = some (Response.fail EINTR) := by
      cases ans with
      | none => simp [Event.is_interrupted] at hi
      | some r =>
        cases r with
        | ok v out => simp [Event.is_interrupted] at hi
        | fail e =>
          simp only [Event.is_interrupted, beq_iff_eq] at hi
          rw [hi]
    subst ha
    simp only [follow_step] at hf
    split at hf
    · simpa using hf.symm
    · split at hf
      · split at hf
        · simpa using hf.symm
        · cases hf
      · cases hf

theorem follow_requests (t : List Event) :
    ∀ h h1, follow h t = some h1 → follow h (requests t) = some h1 := by
  induction t with
  | nil => intro h h1 hf; simpa [requests] using hf
  | cons e t ih =>
    intro h h1 hf
    simp only [follow] at hf
    cases hs : follow_step h e with
    | none => rw [hs] at hf; simp at hf
    | some h2 =>
      rw [hs] at hf
      simp only [Option.some_bind] at hf
      by_cases hi : e.is_interrupted = true
      · have h2h : h2 = h := follow_step_interrupted h e h2 hi hs
        subst h2h
        have : requests (e :: t) = requests t := by simp [requests, hi]
        rw [this]
        exact ih _ _ hf
      · have : requests (e :: t) = e :: requests t := by simp [requests, hi]
        rw [this]
        simp only [follow, hs, Option.some_bind]
        exact ih _ _ hf

theorem follow_step_held (h : Option v4l2_buffer) (e : Event) (b : v4l2_buffer)
    (hf : follow_step h e = some (some b)) :
    (h = some b ∧ (e.is_process_image = true ∨ e.is_interrupted = true)) ∨
    (∃ fh a v, e = Event.ioctl fh (to_int VIDIOC_DQBUF) a (some (Response.ok v b))) := by
  cases e with
  | read fd buf count ans => simp [follow_step] at hf
  | process_image p n =>
    simp only [follow_step] at hf
    split at hf
    · left
      exact ⟨by simpa using hf, Or.inl rfl⟩
    · cases hf
  | ioctl fh request arg ans =>
    simp only [follow_step] at hf
    split at hf
    · next hreq =>
      split at hf
      · next ha =>
        left
        refine ⟨by simpa using hf, Or.inr ?_⟩
        rw [ha]; simp [Event.is_interrupted]
      · next ha =>
        cases ans with
        | none => simp at hf
        | some r =>
          cases r with
          | fail e => simp at hf
          | ok v out =>
            right
            have : out = b := by simpa using hf
            exact ⟨fh, arg, v, by rw [hreq, this]⟩
    · split at hf
      · split at hf
        · split at hf
          · next ha =>
            left
            refine ⟨by simpa using hf, Or.inr ?_⟩
            rw [ha]; simp [Event.is_interrupted]
          · simp at hf
        · cases hf
      · cases hf

theorem follow_held (l : List Event) :
    ∀ (h : Option v4l2_buffer) (b : v4l2_buffer), follow h l = some (some b) →
      (h = some b ∧ ∀ e ∈ l, e.is_process_image = true ∨ e.is_interrupted = true) ∨
      (∃ pre mid fh a v,
        l = pre ++ Event.ioctl fh (to_int VIDIOC_DQBUF) a (some (Response.ok v b)) :: mid ∧
        ∀ e ∈ mid, e.is_process_image = true ∨ e.is_interrupted = true) := by
  induction l with
  | nil =>
    intro h b hf
    left
    simp only [follow, Option.some.injEq] at hf
    exact ⟨hf, by simp⟩
  | cons e t ih =>
    intro h b hf
    simp only [follow] at hf
    cases hs : follow_step h e with
    | none => rw [hs] at hf; simp at hf
    | some h2 =>
      rw [hs] at hf
      simp only [Option.some_bind] at hf
      rcases ih h2 b hf with ⟨h2b, hq⟩ | ⟨pre, mid, fh, a, v, ht, hq⟩
      · subst h2b
        rcases follow_step_held h e b hs with ⟨hb, he⟩ | ⟨fh, a, v, he⟩
        · left
          refine ⟨hb, ?_⟩
          intro x hx
          rcases List.mem_cons.mp hx with rfl | hx
          · exact he
          · exact hq x hx
        · right
          exact ⟨[], t, fh, a, v, by rw [he]; rfl, hq⟩
      · right
        exact ⟨e :: pre, mid, fh, a, v, by rw [ht]; rfl, hq⟩

theorem follow_before_qbuf (pre post : List Event) (fh : Int) (b : v4l2_buffer)
    (ans : Option Response) (h h1 : Option v4l2_buffer)
    (hf : follow h (pre ++ Event.ioctl fh (to_int VIDIOC_QBUF) b ans :: post) = some h1) :
    follow h pre = some (some b) := by
  have hne := qbuf_ne_dqbuf
  rw [follow_append] at hf
  cases hp : follow h pre with
  | none => rw [hp] at hf; simp at hf
  | some h2 =>
    rw [hp] at hf
    simp only [Option.some_bind, follow] at hf
    by_cases hb : h2 = some b
    · rw [hb]
    · exfalso
      simp [follow_step, hne, hb] at hf

theorem follow_after_qbuf (pre post : List Event) (fh : Int) (b : v4l2_buffer)
    (ans : Option Response) (h h1 : Option v4l2_buffer)
    (hi : (Event.ioctl fh (to_int VIDIOC_QBUF) b ans).is_interrupted = false)
    (hf : follow h (pre ++ Event.ioctl fh (to_int VIDIOC_QBUF) b ans :: post) = some h1) :
    follow none post = some h1 := by
  have hne := qbuf_ne_dqbuf
  have hpre := follow_before_qbuf pre post fh b ans h h1 hf
  rw [follow_append, hpre] at hf
  simp only [Option.some_bind, follow] at hf
  have ha : ans ≠ some (Response.fail EINTR) := by
    intro ha; rw [ha] at hi; simp [Event.is_interrupted] at hi
  simpa [follow_step, hne, ha] using hf

theorem dequeue_events_xioctl (s : State) (k : Nat) (r : Response)
    (hio : s.io ≠ io_method.IO_METHOD_READ) :
    dequeue_events s k r =
      interrupted s.fd (to_int VIDIOC_DQBUF) (dqbuf_request s.io) k ++
        [Event.ioctl s.fd (to_int VIDIOC_DQBUF) (dqbuf_request s.io) (some r)] := by
  cases hio2 : s.io with
  | IO_METHOD_READ => exact absurd hio2 hio
  | IO_METHOD_MMAP => simp [dequeue_events, hio2]
  | IO_METHOD_USERPTR => simp [dequeue_events, hio2]

theorem dequeue_script_xioctl (io : io_method) (k : Nat) (r : Response)
    (rest : List Response) (hio : io ≠ io_method.IO_METHOD_READ) :
    dequeue_script io k r rest = List.replicate k (Response.fail EINTR) ++ r :: rest := by
  cases io with
  | IO_METHOD_READ => exact absurd rfl hio
  | IO_METHOD_MMAP => rfl
  | IO_METHOD_USERPTR => rfl

theorem follow_dequeue_fail (fh : Int) (a : v4l2_buffer) (k : Nat) (e : Int)
    (he : e ≠ EINTR) (h : Option v4l2_buffer) :
    follow h (interrupted fh (to_int VIDIOC_DQBUF) a k ++
      [Event.ioctl fh (to_int VIDIOC_DQBUF) a (some (Response.fail e))]) = some none := by
  rw [follow_interrupted_dqbuf]
  simp [follow, follow_step, he]

theorem follow_dequeue_unanswered (fh : Int) (a : v4l2_buffer) (k : Nat)
    (h : Option v4l2_buffer) :
    follow h (interrupted fh (to_int VIDIOC_DQBUF) a k ++
      [Event.ioctl fh (to_int VIDIOC_DQBUF) a none]) = some none := by
  rw [follow_interrupted_dqbuf]
  simp [follow, follow_step]

theorem follow_dequeue_ok (fh : Int) (a : v4l2_buffer) (k v : Nat) (out : v4l2_buffer)
    (l : List Event) (h : Option v4l2_buffer) :
    follow h ((interrupted fh (to_int VIDIOC_DQBUF) a k ++
      [Event.ioctl fh (to_int VIDIOC_DQBUF) a (some (Response.ok v out))]) ++ l) =
      follow (some out) l := by
  rw [List.append_assoc, follow_interrupted_dqbuf]
  simp [follow, follow_step]

theorem follow_requeue (fh : Int) (b : v4l2_buffer) (m p n : Nat) (ans : Option Response)
    (ha : ans ≠ some (Response.fail EINTR)) :
    follow (some b) (Event.process_image p n ::
      (interrupted fh (to_int VIDIOC_QBUF) b m ++ [Event.ioctl fh (to_int VIDIOC_QBUF) b ans])) =
      some none := by
  have hne := qbuf_ne_dqbuf
  simp only [follow, follow_step, Option.isSome_some, if_true, Option.some_bind]
  rw [follow_interrupted_qbuf]
  simp [follow, follow_step, hne, ha]

theorem read_frame_follows (s : State) (hio : s.io ≠ io_method.IO_METHOD_READ) :
    ∃ new h1, (read_frame s).2.trace = s.trace ++ new ∧
      (∀ h, follow h new = some h1) ∧
      (∀ v, (read_frame s).1 = Exit.ret v → h1 = none) ∧
      (read_frame s).2.io = s.io := by
  obtain ⟨k, tail, hs, ht⟩ := script_split s.script
  rcases ht with rfl | ⟨r, rest, rfl, hr⟩
  · rw [List.append_nil] at hs
    have h := read_frame_dequeue_unanswered s k hio hs
    exact ⟨_, none, by rw [h], fun h0 => follow_dequeue_unanswered _ _ _ h0,
      fun _ _ => rfl, by rw [h]⟩
  · cases r with
    | fail e =>
      have he : e ≠ EINTR := fun h => hr (by rw [h])
      have h := read_frame_dequeue_fail s k e rest
        (by rw [dequeue_script_xioctl _ _ _ _ hio]; exact hs) (fun _ => he)
      refine ⟨_, none, by rw [h], ?_, fun _ _ => rfl, by rw [h]⟩
      intro h0
      rw [dequeue_events_xioctl s k _ hio]
      exact follow_dequeue_fail _ _ _ e he h0
    | ok v out =>
      by_cases hrec : recognized s out
      · obtain ⟨m, tail2, hs2, ht2⟩ := script_split rest
        rcases ht2 with rfl | ⟨q, rest2, rfl, hq⟩
        · rw [List.append_nil] at hs2
          rw [hs2] at hs
          have h := read_frame_requeue_unanswered s k v m out hs hrec
          refine ⟨_, none, by rw [h], ?_, fun _ _ => rfl, by rw [h]⟩
          intro h0
          rw [dequeue_events_xioctl s k _ hio, follow_dequeue_ok, requeue_events]
          exact follow_requeue _ _ _ _ _ none (by simp)
        · rw [hs2] at hs
          have h := read_frame_requeue s k v m out q rest2 hs hrec hq
          refine ⟨_, none, by rw [h], ?_, fun _ _ => rfl, by rw [h]⟩
          intro h0
          rw [dequeue_events_xioctl s k _ hio, follow_dequeue_ok, requeue_events]
          exact follow_requeue _ _ _ _ _ (some q) (by simpa using hq)
      · have h := read_frame_unrecognized s k v out rest hio hs hrec
        refine ⟨_, some out, by rw [h]; rfl, ?_, ?_, by rw [h]; rfl⟩
        · intro h0
          rw [dequeue_events_xioctl s k _ hio]
          have := follow_dequeue_ok s.fd (dqbuf_request s.io) k v out [] h0
          simpa [follow] using this
        · intro v1 hv
          rw [h] at hv
          cases hv

theorem read_frames_follows (n : Nat) :
    ∀ (s : State), s.io ≠ io_method.IO_METHOD_READ →
      ∃ t h1, (read_frames n s).2.trace = s.trace ++ t ∧ follow none t = some h1 := by
  induction n with
  | zero =>
    intro s _
    exact ⟨[], none, by simp [read_frames], rfl⟩
  | succ n ih =>
    intro s hio
    obtain ⟨new, h1, htr, hfol, hret, hio1⟩ := read_frame_follows s hio
    cases hx : read_frame s with
    | mk e s1 =>
      rw [hx] at htr hret hio1
      simp only at htr hret hio1
      cases e with
      | ret v =>
        have hnone : h1 = none := hret v rfl
        obtain ⟨t, h2, ht, hf⟩ := ih s1 (by rw [hio1]; exact hio)
        refine ⟨new ++ t, h2, ?_, ?_⟩
        · simp only [read_frames, hx]
          rw [ht, htr, List.append_assoc]
        · rw [follow_append, hfol none, hnone]
          simpa using hf
      | errno_exit name =>
        exact ⟨new, h1, by simp only [read_frames, hx]; exact htr, hfol none⟩
      | assert_fail =>
        exact ⟨new, h1, by simp only [read_frames, hx]; exact htr, hfol none⟩
      | blocked =>
        exact ⟨new, h1, by simp only [read_frames, hx]; exact htr, hfol none⟩

/-! ## The claim on sequences of calls -/

/-- C5: over any number of calls of `read_frame` in a row (`IO_METHOD_MMAP` or
`IO_METHOD_USERPTR`) and any answers of the driver, take the trace `t` of
these calls.  (1) Every `VIDIOC_QBUF` call in `t`, for a structure `b`, comes
after a `VIDIOC_DQBUF` call that succeeded and returned `b`, and between the
two lie only the `process_image` call and interrupted attempts: the dequeue of
the same call.  (2) Counting a request `xioctl` repeats after a signal once,
between two `VIDIOC_QBUF` requests lies a `VIDIOC_DQBUF` that succeeded and
returned the structure of the second. -/
theorem read_frames_requeue_only_dequeued (n : Nat) (s : State)
    (hio : s.io = io_method.IO_METHOD_MMAP ∨ s.io = io_method.IO_METHOD_USERPTR) :
    ∃ t, (read_frames n s).2.trace = s.trace ++ t ∧
      (∀ pre post fh b ans,
        t = pre ++ Event.ioctl fh (to_int VIDIOC_QBUF) b ans :: post →
        ∃ pre1 mid fh1 a v,
          pre = pre1 ++ Event.ioctl fh1 (to_int VIDIOC_DQBUF) a (some (Response.ok v b)) :: mid ∧
          ∀ e ∈ mid, e.is_process_image = true ∨ e.is_interrupted = true) ∧
      (∀ l1 l2 l3 fh fh1 b b1 ans ans1,
        requests t = l1 ++ Event.ioctl fh (to_int VIDIOC_QBUF) b ans ::
          (l2 ++ Event.ioctl fh1 (to_int VIDIOC_QBUF) b1 ans1 :: l3) →
        ∃ fh2 a v,
          Event.ioctl fh2 (to_int VIDIOC_DQBUF) a (some (Response.ok v b1)) ∈ l2) := by
  have hio1 : s.io ≠ io_method.IO_METHOD_READ := by
    rcases hio with h | h <;> rw [h] <;> decide
  obtain ⟨t, h1, htr, hf⟩ := read_frames_follows n s hio1
  refine ⟨t, htr, ?_, ?_⟩
  · intro pre post fh b ans ht
    rw [ht] at hf
    have hpre := follow_before_qbuf pre post fh b ans none h1 hf
    rcases follow_held pre none b hpre with ⟨hb, _⟩ | hx
    · cases hb
    · exact hx
  · intro l1 l2 l3 fh fh1 b b1 ans ans1 ht
    have hfr := follow_requests t none h1 hf
    have hmem : Event.ioctl fh (to_int VIDIOC_QBUF) b ans ∈ requests t := by
      rw [ht]; simp
    have hni : (Event.ioctl fh (to_int VIDIOC_QBUF) b ans).is_interrupted = false := by
      have := (List.mem_filter.mp hmem).2
      simpa using this
    rw [ht] at hfr
    have hpost := follow_after_qbuf l1 _ fh b ans none h1 hni hfr
    have hl2 := follow_before_qbuf l2 l3 fh1 b1 ans1 none h1 hpost
    rcases follow_held l2 none b1 hl2 with ⟨hb, _⟩ | ⟨pre, mid, fh2, a, v, hl, _⟩
    · cases hb
    · exact ⟨fh2, a, v, by rw [hl]; simp⟩

set_option maxRecDepth 100000 in
/-- C5, witness: four mapped buffers and a driver that always has a frame
ready.  Ten calls in a row return 1 ten times, and their trace is, for every
frame, one `VIDIOC_DQBUF`, one `process_image` and one `VIDIOC_QBUF` of the
structure just dequeued. -/
theorem read_frames_requeue_only_dequeued_witness :
    (session io_method.IO_METHOD_MMAP (ready_script 10 0)).io = io_method.IO_METHOD_MMAP ∧
    (read_frames 10 (session io_method.IO_METHOD_MMAP (ready_script 10 0))).1 =
      List.replicate 10 (Exit.ret 1) ∧
    (read_frames 10 (session io_method.IO_METHOD_MMAP (ready_script 10 0))).2.trace =
      ready_trace 10 0 ∧
    ∃ t, (read_frames 10 (session io_method.IO_METHOD_MMAP (ready_script 10 0))).2.trace =
        (session io_method.IO_METHOD_MMAP (ready_script 10 0)).trace ++ t ∧
      (∀ pre post fh b ans,
        t = pre ++ Event.ioctl fh (to_int VIDIOC_QBUF) b ans :: post →
        ∃ pre1 mid fh1 a v,
          pre = pre1 ++ Event.ioctl fh1 (to_int VIDIOC_DQBUF) a (some (Response.ok v b)) :: mid ∧
          ∀ e ∈ mid, e.is_process_image = true ∨ e.is_interrupted = true) ∧
      (∀ l1 l2 l3 fh fh1 b b1 ans ans1,
        requests t = l1 ++ Event.ioctl fh (to_int VIDIOC_QBUF) b ans ::
          (l2 ++ Event.ioctl fh1 (to_int VIDIOC_QBUF) b1 ans1 :: l3) →
        ∃ fh2 a v,
          Event.ioctl fh2 (to_int VIDIOC_DQBUF) a (some (Response.ok v b1)) ∈ l2) :=
  ⟨rfl, by decide, by decide,
   read_frames_requeue_only_dequeued 10
     (session io_method.IO_METHOD_MMAP (ready_script 10 0)) (Or.inl rfl)⟩

/-! ## The claims on `open_device` and the constructor -/

/-- C8: `open_device(device)` validates before it opens, and fails closed.
When `stat` of the device path fails, or the path is not a character device,
it returns -1 and has not called `open`.  Otherwise it calls `open` exactly
once, with the flags `O_RDWR | O_NONBLOCK`; it returns -1 when `open` fails and
the descriptor `open` returned otherwise.  Hence its value is `>= 0` if and
only if `stat` succeeded, the path is a character device and `open`
succeeded. -/
theorem open_device_fails_closed (h : Host) (device : Nat) :
    (∀ e, h.stat (dev_name device) = StatAnswer.fail e →
      (open_device h device).1 = -1 ∧
      (open_device h device).2.countP Call.is_open = 0) ∧
    (∀ st, h.stat (dev_name device) = StatAnswer.ok st → S_ISCHR st = false →
      (open_device h device).1 = -1 ∧
      (open_device h device).2.countP Call.is_open = 0) ∧
    (∀ st, h.stat (dev_name device) = StatAnswer.ok st → S_ISCHR st = true →
      (open_device h device).2.filter Call.is_open =
        [Call.open_ (dev_name device) (Nat.lor O_RDWR O_NONBLOCK) 0] ∧
      (∀ e, h.open_ (dev_name device) (Nat.lor O_RDWR O_NONBLOCK) 0 = OpenAnswer.fail e →
        (open_device h device).1 = -1) ∧
      (∀ fd, h.open_ (dev_name device) (Nat.lor O_RDWR O_NONBLOCK) 0 = OpenAnswer.ok fd →
        (open_device h device).1 = (fd : Int))) ∧
    (0 ≤ (open_device h device).1 ↔
      ∃ st fd, h.stat (dev_name device) = StatAnswer.ok st ∧ S_ISCHR st = true ∧
        h.open_ (dev_name device) (Nat.lor O_RDWR O_NONBLOCK) 0 = OpenAnswer.ok fd) := by
  refine ⟨?_, ?_, ?_, ?_⟩
  · intro e he
    simp [open_device, he, Call.is_open]
  · intro st hst hc
    simp [open_device, hst, hc, Call.is_open]
  · intro st hst hc
    refine ⟨?_, ?_, ?_⟩
    · cases ho : h.open_ (dev_name device) (Nat.lor O_RDWR O_NONBLOCK) 0 <;>
        simp [open_device, hst, hc, ho, Call.is_open]
    · intro e ho
      simp [open_device, hst, hc, ho]
    · intro fd ho
      simp [open_device, hst, hc, ho]
  · constructor
    · intro hge
      cases hst : h.stat (dev_name device) with
      | fail e => simp [open_device, hst] at hge
      | ok st =>
        cases hc : S_ISCHR st with
        | false => simp [open_device, hst, hc] at hge
        | true =>
          cases ho : h.open_ (dev_name device) (Nat.lor O_RDWR O_NONBLOCK) 0 with
          | fail e => simp [open_device, hst, hc, ho] at hge
          | ok fd => exact ⟨st, fd, rfl, hc, rfl⟩
    · rintro ⟨st, fd, hst, hc, ho⟩
      simp [open_device, hst, hc, ho]

/-- C8, witness: on the host `one_camera`, device 0 opens as descriptor 3 with
one call of `open`; device 1 (a regular file) and device 3 (no such path) give
-1 without a call of `open`; device 2 (busy) gives -1 after one call. -/
theorem open_device_fails_closed_witness :
    (open_device one_camera 0).1 = 3 ∧
    (open_device one_camera 0).2 =
      [Call.stat "/dev/video0", Call.open_ "/dev/video0" 2050 0] ∧
    (open_device one_camera 1).1 = -1 ∧
    (open_device one_camera 1).2.countP Call.is_open = 0 ∧
    (open_device one_camera 3).1 = -1 ∧
    (open_device one_camera 3).2.countP Call.is_open = 0 ∧
    (open_device one_camera 2).1 = -1 ∧
    (open_device one_camera 2).2.countP Call.is_open = 1 ∧
    (0 ≤ (open_device one_camera 0).1 ↔
      ∃ st fd, one_camera.stat (dev_name 0) = StatAnswer.ok st ∧ S_ISCHR st = true ∧
        one_camera.open_ (dev_name 0) (Nat.lor O_RDWR O_NONBLOCK) 0 = OpenAnswer.ok fd) :=
  ⟨by decide, by decide, by decide, by decide, by decide, by decide, by decide, by decide,
   (open_device_fails_closed one_camera 0).2.2.2⟩

/-- C6, the code at the failing input: on the host `one_camera`,
`open_device(0)` returns descriptor 3 and the constructor stores 0;
`open_device(3)` fails with -1 and the constructor stores 1, which is not
negative. -/
theorem v4l2_capture_stores_comparison :
    (open_device one_camera 0).1 = 3 ∧
    (v4l2_capture.v4l2_capture one_camera 0).fd = 0 ∧
    (open_device one_camera 3).1 = -1 ∧
    (v4l2_capture.v4l2_capture one_camera 3).fd = 1 := by
  decide

end v4l2_impl

end dlib
